import Mathlib

/-!
Shallow embedding of the web-crawler AI assistant backend
(`config.py`, `models.py`, `providers.py`, `services.py`, `app.py`)
and proofs about its credential store, provider adapters and the
text-truncation heuristic.

Conventions of the embedding:
* Python strings are `String`; character-level slicing is modelled on
  `List Char` (Python slicing and `len` count characters).
* `None`-able Python values are `Option _`; Python truthiness of an
  optional string (`if user_id:`) is the `truthy` function below.
* The relational store holds a list of `APIKey` rows in insertion
  order; `query.first()` is `List.head?` of the filtered rows.
* The external AI backends are oracles passed in as functions
  returning `Except String _`: a `.error` value is a raised exception,
  which the `try/except` blocks of the source convert to an error
  dictionary.  Result dictionaries `{"answer": ...} / {"error": ...}`
  are the `PyResult` type.
* Row ids and timestamps are omitted: no verified operation reads them.
-/

/-- Python truthiness of an optional string: `None` and `""` are falsy. -/
def truthy : Option String → Bool
  | none => false
  | some s => s != ""

/-- Python `a or b` for an optional string `a` and a default `b`:
`None` and `""` both fall through to the default. -/
def pyOrStr : Option String → String → String
  | none, d => d
  | some s, d => if s = "" then d else s

/-- Index of the rightmost character satisfying `p`, if any
(0-based, counted from the front of the list). -/
def lastIndexWhere (p : Char → Bool) : List Char → Option Nat
  | [] => none
  | c :: cs =>
    match lastIndexWhere p cs with
    | some i => some (i + 1)
    | none => if p c then some 0 else none

/-- Convert an optional index to the `int` convention of Python
`str.rfind`: `-1` when the character does not occur. -/
def foundToInt : Option Nat → Int
  | some i => (i : Int)
  | none => -1

/-- Model of the Python built-in `str.rfind` for a single-character
needle: the highest index at which the character occurs, or `-1`. -/
def rfind (l : List Char) (c : Char) : Int :=
  foundToInt (lastIndexWhere (fun x => x == c) l)

/-- The three sentence-ending marks the truncation heuristic scans for. -/
def isSentencePunct (c : Char) : Bool :=
  c == '.' || (c == '?' || c == '!')

/-- The fixed ellipsis marker `"..."` appended in the fallback case. -/
def ellipsisMarker : List Char := ['.', '.', '.']

/-- `providers.py`, `AIProvider.truncate_text`: truncate text to a
maximum number of characters while trying to keep complete sentences. -/
def AIProvider.truncate_text (text : List Char) (max_chars : Nat) : List Char :=
  if text.length ≤ max_chars then text
  else
    let truncated := text.take max_chars
    let last_period := rfind truncated '.'
    let last_question := rfind truncated '?'
    let last_exclamation := rfind truncated '!'
    let cut_point := max (max last_period last_question) last_exclamation
    if 0 < cut_point then text.take (cut_point.toNat + 1)
    else truncated ++ ellipsisMarker

/-- `services.py`, `OpenAIService.truncate_text`: the second, textually
identical copy of the truncation heuristic. -/
def OpenAIService.truncate_text (text : List Char) (max_chars : Nat) : List Char :=
  if text.length ≤ max_chars then text
  else
    let truncated := text.take max_chars
    let last_period := rfind truncated '.'
    let last_question := rfind truncated '?'
    let last_exclamation := rfind truncated '!'
    let cut_point := max (max last_period last_question) last_exclamation
    if 0 < cut_point then text.take (cut_point.toNat + 1)
    else truncated ++ ellipsisMarker

/-- Reference truncation, written from the specification text of claim
C4: if the text fits, return it unchanged; otherwise take the first
`maxChars` characters, find the rightmost occurrence of a sentence-ending
mark in that prefix; if one exists at a position greater than zero,
return the text cut through and including that character, else return
the raw prefix with the fixed ellipsis marker appended. -/
def truncateRef (text : List Char) (maxChars : Nat) : List Char :=
  if text.length ≤ maxChars then text
  else
    let window := text.take maxChars
    match lastIndexWhere isSentencePunct window with
    | some i => if 0 < i then text.take (i + 1) else window ++ ellipsisMarker
    | none => window ++ ellipsisMarker

/-- `config.py`: default OpenAI model. -/
def Config.OPENAI_MODEL : String := "gpt-3.5-turbo"

/-- `config.py`: default Anthropic model. -/
def Config.CLAUDE_MODEL : String := "claude-3-sonnet-20240229"

/-- `config.py`: shared max-output-token setting. -/
def Config.MAX_TOKENS : Nat := 1000

/-- `config.py`: shared sampling temperature (0.7). -/
def Config.TEMPERATURE : ℚ := 7 / 10

/-- `config.py`: supported providers, each with its model allow-list. -/
def Config.SUPPORTED_PROVIDERS : List (String × List String) :=
  [("openai", ["gpt-4", "gpt-3.5-turbo"]),
   ("anthropic", ["claude-3-sonnet-20240229"])]

/-- The allow-list of one provider in `Config.SUPPORTED_PROVIDERS`. -/
def providerAllowList (p : String) : List String :=
  match Config.SUPPORTED_PROVIDERS.find? (fun e => e.1 == p) with
  | some e => e.2
  | none => []

/-- `models.py`: the values of the `Provider` string enum. -/
def Provider.values : List String := ["openai", "anthropic"]

/-- `models.py`: the values of the `Model` string enum. -/
def Model.values : List String :=
  ["gpt-4", "gpt-3.5-turbo", "claude-3-sonnet-20240229"]

/-- `models.py`: one row of the `api_keys` table (ids and timestamps
omitted; no verified operation reads them). -/
structure APIKey where
  key : String
  provider : String
  model : String
  user_id : Option String
  is_valid : Bool
deriving DecidableEq, Repr

/-- `services.py`, `DatabaseService.update_api_key`: validate provider
and model against the string enums, invalidate the keys of the matching
user scope (Python truthiness decides which scope), then insert the new
key with the default validity flag `True`.  Returns the new table
together with `none` on success or `some msg` for the error dictionary;
validation errors leave the table unchanged (the transaction never
started mutating). -/
def DatabaseService.update_api_key (db : List APIKey)
    (key provider model : String) (user_id : Option String) :
    List APIKey × Option String :=
  if provider ∉ Provider.values then
    (db, some "Invalid provider. Must be one of: [openai, anthropic]")
  else if model ∉ Model.values then
    (db, some "Invalid model. Must be one of: [gpt-4, gpt-3.5-turbo, claude-3-sonnet-20240229]")
  else
    let db1 :=
      if truthy user_id then
        db.map fun k =>
          if k.user_id = user_id ∧ k.provider = provider then
            { k with is_valid := false }
          else k
      else
        db.map fun k =>
          if k.user_id = none ∧ k.provider = provider then
            { k with is_valid := false }
          else k
    (db1 ++ [{ key := key, provider := provider, model := model,
               user_id := user_id, is_valid := true }], none)

/-- Database states reachable from the empty table by any sequence of
`update_api_key` calls. -/
inductive ReachableDB : List APIKey → Prop where
  | init : ReachableDB []
  | step (db : List APIKey) (key provider model : String)
      (user_id : Option String) : ReachableDB db →
      ReachableDB (DatabaseService.update_api_key db key provider model user_id).1

/-- As `ReachableDB`, but every call's user id is absent or a non-empty
string (i.e. JSON `null`/omitted or a Python-truthy string). -/
inductive ReachableDBGood : List APIKey → Prop where
  | init : ReachableDBGood []
  | step (db : List APIKey) (key provider model : String)
      (user_id : Option String) : user_id ≠ some "" → ReachableDBGood db →
      ReachableDBGood (DatabaseService.update_api_key db key provider model user_id).1

/-- Row predicate: a valid key of the exact (provider, user-scope). -/
def validPred (p : String) (u : Option String) (k : APIKey) : Bool :=
  decide (k.provider = p ∧ k.user_id = u ∧ k.is_valid = true)

/-- Number of valid keys of the exact (provider, user-scope) partition. -/
def validCount (db : List APIKey) (p : String) (u : Option String) : Nat :=
  db.countP (validPred p u)

/-- `app.py`, route `GET /get_api_key`: filter valid keys of the
provider, additionally filter by user id only when the query parameter
is truthy, and take the first row. -/
def get_api_key_query (db : List APIKey) (provider : String)
    (user_id : Option String) : Option APIKey :=
  let q := db.filter fun k => k.provider == provider && k.is_valid
  (if truthy user_id then q.filter fun k => k.user_id == user_id else q).head?

/-- One message of an OpenAI-style chat request. -/
structure Message where
  role : String
  content : String
deriving DecidableEq, Repr

/-- The argument shape of `client.chat.completions.create`. -/
structure OpenAIRequest where
  model : String
  messages : List Message
  max_tokens : Nat
  temperature : ℚ
deriving DecidableEq, Repr

/-- One completion choice of an OpenAI-style chat response. -/
structure Choice where
  message : Message
deriving DecidableEq, Repr

/-- An OpenAI-style chat response. -/
structure ChatResponse where
  choices : List Choice
deriving DecidableEq, Repr

/-- The uniform result dictionary: `{"answer": ...}` or `{"error": ...}`. -/
inductive PyResult where
  | answer (s : String)
  | errorRes (s : String)
deriving DecidableEq, Repr

/-- Whether a result is the `{"error": ...}` shape. -/
def PyResult.isErrorResult : PyResult → Bool
  | .errorRes _ => true
  | .answer _ => false

/-- The chat request both OpenAI call sites build: one fixed system
message and one user message embedding the truncated context and the
question, with the shared token and temperature settings. -/
def mkChatRequest (model question truncated_context : String) : OpenAIRequest :=
  { model := model,
    messages :=
      [{ role := "system",
         content := "You are a helpful assistant analyzing webpage content." },
       { role := "user",
         content := "Context: " ++ truncated_context ++ "\n\nQuestion: " ++ question }],
    max_tokens := Config.MAX_TOKENS,
    temperature := Config.TEMPERATURE }

/-- Extraction `response.choices[0].message.content` performed inside
the `try` block: an empty choice list raises the caught IndexError. -/
def extractAnswer (resp : ChatResponse) : PyResult :=
  match resp.choices.head? with
  | some ch => .answer ch.message.content
  | none => .errorRes "list index out of range"

/-- `providers.py`, `OpenAIProvider.ask_question`: truncate the context,
build the single chat request, call the backend once inside `try`, and
convert any raised fault to the error dictionary.  The second component
is the list of requests handed to the external backend. -/
def OpenAIProvider.ask_question
    (backend : OpenAIRequest → Except String ChatResponse)
    (api_key question context : String) (model : Option String) :
    PyResult × List OpenAIRequest :=
  let truncated_context := String.mk (AIProvider.truncate_text context.toList 4000)
  let req := mkChatRequest (pyOrStr model Config.OPENAI_MODEL) question truncated_context
  match backend req with
  | .ok resp => (extractAnswer resp, [req])
  | .error e => (.errorRes e, [req])

/-- The argument shape the source passes to the Anthropic client:
note the `content` keyword and the missing `messages` list. -/
structure AnthropicArgs where
  model : String
  max_tokens : Nat
  temperature : ℚ
  system : String
  messages : Option (List Message)
  content : Option String
deriving DecidableEq, Repr

/-- One content block of an Anthropic response. -/
structure ContentBlock where
  text : String
deriving DecidableEq, Repr

/-- An Anthropic-style message response. -/
structure AnthropicMessage where
  content : List ContentBlock
deriving DecidableEq, Repr

/-- Modelled from the spec: the external Anthropic backend interface
requires a `messages` list argument; an invocation that omits
`messages` and instead passes a `content` keyword argument is rejected
by the client with a raised fault before any request is answered, so
the backend oracle is consulted only for well-formed calls.  (The
client library itself is not part of this repository.) -/
def anthropicCreate
    (backend : AnthropicArgs → Except String AnthropicMessage)
    (args : AnthropicArgs) : Except String AnthropicMessage :=
  if args.content.isSome then
    .error "Messages.create() got an unexpected keyword argument: content"
  else
    match args.messages with
    | none => .error "Messages.create() missing required argument: messages"
    | some _ => backend args

/-- `providers.py`, `AnthropicProvider.ask_question`: truncate the
context, invoke the client once inside `try` with a `content` keyword
argument instead of a `messages` list, extract the first content block
on success, and convert any raised fault to the error dictionary.  The
second component is the list of client invocations made. -/
def AnthropicProvider.ask_question
    (backend : AnthropicArgs → Except String AnthropicMessage)
    (api_key question context : String) (model : Option String) :
    PyResult × List AnthropicArgs :=
  let truncated_context := String.mk (AIProvider.truncate_text context.toList 4000)
  let args : AnthropicArgs :=
    { model := pyOrStr model Config.CLAUDE_MODEL,
      max_tokens := Config.MAX_TOKENS,
      temperature := Config.TEMPERATURE,
      system := "You are a helpful assistant analyzing webpage content.",
      messages := none,
      content := some ("Context: " ++ truncated_context ++ "\n\nQuestion: " ++ question) }
  match anthropicCreate backend args with
  | .ok msg =>
    match msg.content.head? with
    | some block => (.answer block.text, [args])
    | none => (.errorRes "list index out of range", [args])
  | .error e => (.errorRes e, [args])

/-- Observable collaborator events of the service orchestration. -/
inductive SvcEvent where
  | credLookup (provider : String)
  | externalCall (req : OpenAIRequest)
deriving DecidableEq, Repr

/-- Result of the service orchestration together with the trace of
collaborator events it performed, in order. -/
structure SvcOutcome where
  result : PyResult
  trace : List SvcEvent
deriving DecidableEq, Repr

/-- The credential query of `OpenAIService.ask_question`:
`APIKey.query.filter_by(provider=provider, is_valid=True).first()`. -/
def svc_credential (db : List APIKey) (provider : String) : Option APIKey :=
  (db.filter fun k => k.provider == provider && k.is_valid).head?

/-- `services.py`, `OpenAIService.ask_question`: query the first valid
key of the provider (this runs before any provider check), bail out if
there is none, truncate the context, then branch on the provider:
"openai" performs the single external call inside `try`, "anthropic"
returns the pending-implementation error, anything else the
unsupported-provider error.  The `await` of the source is treated as
transparent evaluation of the issued call. -/
def OpenAIService.ask_question
    (backend : OpenAIRequest → Except String ChatResponse)
    (db : List APIKey) (question context : String)
    (provider : String) (model : Option String) : SvcOutcome :=
  match svc_credential db provider with
  | none =>
    { result := .errorRes ("No valid API key found for provider: " ++ provider),
      trace := [.credLookup provider] }
  | some api_key =>
    let truncated_context := String.mk (OpenAIService.truncate_text context.toList 4000)
    if provider = "openai" then
      let req := mkChatRequest (pyOrStr model api_key.model) question truncated_context
      match backend req with
      | .ok resp =>
        { result := extractAnswer resp,
          trace := [.credLookup provider, .externalCall req] }
      | .error e =>
        { result := .errorRes e,
          trace := [.credLookup provider, .externalCall req] }
    else if provider = "anthropic" then
      { result := .errorRes "Anthropic API implementation pending",
        trace := [.credLookup provider] }
    else
      { result := .errorRes ("Unsupported provider: " ++ provider),
        trace := [.credLookup provider] }

/-- The models handed to the external backend during one service call. -/
def sentModels (o : SvcOutcome) : List String :=
  o.trace.filterMap fun ev =>
    match ev with
    | .externalCall r => some r.model
    | _ => none

/-! ### Lemmas about the truncation heuristic -/

/-- One cons-step of a rightmost-index search, on the rfind integer
convention: bump a found index, else start at 0 when the head matches. -/
def stepInt (v : Int) (b : Bool) : Int :=
  if 0 ≤ v then v + 1 else if b then 0 else -1

lemma foundToInt_ge (o : Option Nat) : -1 ≤ foundToInt o := by
  rcases o with _ | i
  · simp [foundToInt]
  · simp only [foundToInt]
    omega

lemma foundToInt_cons (p : Char → Bool) (a : Char) (l : List Char) :
    foundToInt (lastIndexWhere p (a :: l))
      = stepInt (foundToInt (lastIndexWhere p l)) (p a) := by
  rcases h : lastIndexWhere p l with _ | i <;>
    rcases hb : p a with _ | _ <;>
    simp [lastIndexWhere, h, hb, foundToInt, stepInt]

lemma stepInt_max3 (x y z : Int) (b c d : Bool)
    (hx : -1 ≤ x) (hy : -1 ≤ y) (hz : -1 ≤ z) :
    max (max (stepInt x b) (stepInt y c)) (stepInt z d)
      = stepInt (max (max x y) z) (b || (c || d)) := by
  rcases b <;> rcases c <;> rcases d <;>
    simp only [stepInt, Bool.or_true, Bool.or_false, Bool.true_or, Bool.false_or,
      if_true, if_false, Bool.false_eq_true, Bool.true_eq_false, ite_true, ite_false] <;>
    split_ifs <;> omega

lemma cut_point_eq (l : List Char) :
    max (max (rfind l '.') (rfind l '?')) (rfind l '!')
      = foundToInt (lastIndexWhere isSentencePunct l) := by
  induction l with
  | nil => rfl
  | cons a l ih =>
    simp only [rfind] at ih ⊢
    rw [foundToInt_cons, foundToInt_cons, foundToInt_cons, foundToInt_cons,
      stepInt_max3 _ _ _ _ _ _ (foundToInt_ge _) (foundToInt_ge _) (foundToInt_ge _), ih]
    rfl

lemma lastIndexWhere_lt_length (p : Char → Bool) (l : List Char) (i : Nat)
    (h : lastIndexWhere p l = some i) : i < l.length := by
  induction l generalizing i with
  | nil => simp [lastIndexWhere] at h
  | cons a l ih =>
    simp only [lastIndexWhere] at h
    rcases hr : lastIndexWhere p l with _ | j <;> rw [hr] at h
    · rcases hb : p a with _ | _ <;> rw [hb] at h <;> simp at h
      simp [← h]
    · simp at h
      have := ih j hr
      simp only [List.length_cons]
      omega

lemma lastIndexWhere_getD (p : Char → Bool) (l : List Char) (i : Nat) (d : Char)
    (h : lastIndexWhere p l = some i) : p (l.getD i d) = true := by
  induction l generalizing i with
  | nil => simp [lastIndexWhere] at h
  | cons a l ih =>
    simp only [lastIndexWhere] at h
    rcases hr : lastIndexWhere p l with _ | j <;> rw [hr] at h
    · rcases hb : p a with _ | _ <;> rw [hb] at h <;> simp at h
      simp [← h, List.getD_cons_zero, hb]
    · simp at h
      rw [← h]
      simpa [List.getD_cons_succ] using ih j hr

lemma lastIndexWhere_none_getD (p : Char → Bool) (l : List Char) (d : Char)
    (h : lastIndexWhere p l = none) :
    ∀ j, j < l.length → p (l.getD j d) = false := by
  induction l with
  | nil => intro j hj; simp at hj
  | cons a l ih =>
    intro j hj
    simp only [lastIndexWhere] at h
    rcases hr : lastIndexWhere p l with _ | k <;> rw [hr] at h
    · rcases hb : p a with _ | _ <;> rw [hb] at h <;> simp at h
      rcases j with _ | j
      · simpa [List.getD_cons_zero] using hb
      · simp only [List.getD_cons_succ]
        exact ih hr j (by simpa using hj)
    · simp at h

lemma lastIndexWhere_rightmost (p : Char → Bool) (l : List Char) (i : Nat) (d : Char)
    (h : lastIndexWhere p l = some i) :
    ∀ j, i < j → j < l.length → p (l.getD j d) = false := by
  induction l generalizing i with
  | nil => simp [lastIndexWhere] at h
  | cons a l ih =>
    intro j hij hj
    simp only [lastIndexWhere] at h
    rcases hr : lastIndexWhere p l with _ | k <;> rw [hr] at h
    · rcases hb : p a with _ | _ <;> rw [hb] at h <;> simp at h
      rcases j with _ | j
      · omega
      · simp only [List.getD_cons_succ]
        exact lastIndexWhere_none_getD p l d hr j (by simpa using hj)
    · simp at h
      rcases j with _ | j
      · omega
      · simp only [List.getD_cons_succ]
        exact ih k hr j (by omega) (by simpa using hj)

lemma truncate_text_of_lt (t : List Char) (m : Nat) (h : ¬ t.length ≤ m) :
    AIProvider.truncate_text t m =
      if 0 < foundToInt (lastIndexWhere isSentencePunct (t.take m)) then
        t.take ((foundToInt (lastIndexWhere isSentencePunct (t.take m))).toNat + 1)
      else t.take m ++ ellipsisMarker := by
  simp only [AIProvider.truncate_text]
  rw [if_neg h, cut_point_eq]

/-- Complete case analysis of the truncation heuristic: the identity
case, the sentence-boundary case, and the ellipsis fallback case. -/
lemma truncate_cases (t : List Char) (m : Nat) :
    (t.length ≤ m ∧ AIProvider.truncate_text t m = t) ∨
    (m < t.length ∧ ∃ i, lastIndexWhere isSentencePunct (t.take m) = some i ∧ 0 < i ∧
        AIProvider.truncate_text t m = t.take (i + 1)) ∨
    (m < t.length ∧ foundToInt (lastIndexWhere isSentencePunct (t.take m)) ≤ 0 ∧
        AIProvider.truncate_text t m = t.take m ++ ellipsisMarker) := by
  by_cases h : t.length ≤ m
  · exact Or.inl ⟨h, by simp [AIProvider.truncate_text, h]⟩
  · right
    have hm : m < t.length := by omega
    rw [truncate_text_of_lt t m h]
    rcases hL : lastIndexWhere isSentencePunct (t.take m) with _ | i
    · right
      refine ⟨hm, by simp [foundToInt], ?_⟩
      simp [foundToInt]
    · rcases Nat.eq_zero_or_pos i with hi | hi
    -- rightmost mark at position 0: fallback
      · right
        subst hi
        refine ⟨hm, by simp [foundToInt], ?_⟩
        simp [foundToInt]
      · left
        refine ⟨hm, i, rfl, hi, ?_⟩
        have : (0 : Int) < foundToInt (some i) := by
          simp only [foundToInt]
          omega
        rw [if_pos this]
        simp [foundToInt]

lemma lastIndexWhere_eq_some (p : Char → Bool) (l : List Char) (i : Nat) (d : Char)
    (hi : i < l.length) (hp : p (l.getD i d) = true)
    (hr : ∀ j, j < l.length → i < j → p (l.getD j d) = false) :
    lastIndexWhere p l = some i := by
  rcases h : lastIndexWhere p l with _ | k
  · have hc := lastIndexWhere_none_getD p l d h i hi
    rw [hp] at hc
    exact absurd hc (by simp)
  · have hk := lastIndexWhere_lt_length p l k h
    rcases Nat.lt_trichotomy k i with hki | hki | hki
    · have hc := lastIndexWhere_rightmost p l k d h i hki hi
      rw [hp] at hc
      exact absurd hc (by simp)
    · rw [hki]
    · have h1 := lastIndexWhere_getD p l k d h
      have h2 := hr k hk hki
      rw [h1] at h2
      exact absurd h2 (by simp)

lemma getD_take_eq (t : List Char) (b i : Nat) (d : Char) (hib : i < b) :
    (t.take b).getD i d = t.getD i d := by
  rw [List.getD_eq_getElem?_getD, List.getD_eq_getElem?_getD, List.getElem?_take_of_lt hib]

/-! ### Claims C4, C5 and C9: the truncation heuristic -/

/-- Claim C4 (confirmed): `truncate_text` agrees with the reference
definition from the specification on every input; the output length is
at most `maxChars + 3`; and the only way the output exceeds `maxChars`
is the no-boundary fallback case, where it is exactly the raw
`maxChars`-prefix with the ellipsis marker appended and the window
holds no sentence mark at a positive position. -/
theorem C4_truncate_matches_reference (text : List Char) (maxChars : Nat) :
    AIProvider.truncate_text text maxChars = truncateRef text maxChars ∧
    (AIProvider.truncate_text text maxChars).length ≤ maxChars + 3 ∧
    ((AIProvider.truncate_text text maxChars).length ≤ maxChars ∨
      (AIProvider.truncate_text text maxChars = text.take maxChars ++ ellipsisMarker ∧
        foundToInt (lastIndexWhere isSentencePunct (text.take maxChars)) ≤ 0 ∧
        maxChars < text.length)) := by
  have heq : AIProvider.truncate_text text maxChars = truncateRef text maxChars := by
    by_cases h : text.length ≤ maxChars
    · simp [AIProvider.truncate_text, truncateRef, h]
    · rw [truncate_text_of_lt text maxChars h]
      simp only [truncateRef, if_neg h]
      rcases hL : lastIndexWhere isSentencePunct (text.take maxChars) with _ | i
      · simp [foundToInt]
      · rcases Nat.eq_zero_or_pos i with hi | hi
        · subst hi
          simp [foundToInt]
        · have h0 : (0 : Int) < foundToInt (some i) := by
            simp only [foundToInt]
            omega
          simp [foundToInt, hi, h0, Int.toNat_ofNat]
  refine ⟨heq, ?_, ?_⟩
  · rcases truncate_cases text maxChars with ⟨h1, h2⟩ | ⟨h1, i, hL, hi, h2⟩ | ⟨h1, hf, h2⟩
    · rw [h2]
      omega
    · rw [h2]
      have hiw := lastIndexWhere_lt_length _ _ _ hL
      rw [List.length_take] at hiw
      simp only [List.length_take]
      omega
    · rw [h2]
      simp only [List.length_append, List.length_take, ellipsisMarker]
      simp
  · rcases truncate_cases text maxChars with ⟨h1, h2⟩ | ⟨h1, i, hL, hi, h2⟩ | ⟨h1, hf, h2⟩
    · left
      rw [h2]
      omega
    · left
      rw [h2]
      have hiw := lastIndexWhere_lt_length _ _ _ hL
      rw [List.length_take] at hiw
      simp only [List.length_take]
      omega
    · right
      exact ⟨h2, hf, h1⟩

/-- Claim C5 fails as stated: the text "?aaaa" is longer than the
budget 3 and holds the sentence mark `?` inside the first 3 characters,
yet the heuristic takes the ellipsis fallback (the mark sits at
position 0), so the output has length 6 > 3. -/
theorem C5_counterexample :
    3 < (['?', 'a', 'a', 'a', 'a'] : List Char).length ∧
    isSentencePunct (((['?', 'a', 'a', 'a', 'a'] : List Char).take 3).getD 0 ' ') = true ∧
    ¬ (AIProvider.truncate_text ['?', 'a', 'a', 'a', 'a'] 3).length ≤ 3 := by
  decide

/-- Claim C5 amended (the rightmost mark must sit at a position greater
than zero): for text longer than the budget whose window has its
rightmost sentence mark at position `i > 0`, the output is the text cut
through and including that mark — so it ends with it — and its length
is at most the budget. -/
theorem C5_amended_boundary_truncation (text : List Char) (budget i : Nat)
    (hlen : budget < text.length)
    (hiw : i < (text.take budget).length)
    (hp : isSentencePunct ((text.take budget).getD i ' ') = true)
    (hr : ∀ j, j < (text.take budget).length → i < j →
        isSentencePunct ((text.take budget).getD j ' ') = false)
    (hi : 0 < i) :
    AIProvider.truncate_text text budget
        = text.take i ++ [(text.take budget).getD i ' '] ∧
    (AIProvider.truncate_text text budget).length ≤ budget := by
  have hL : lastIndexWhere isSentencePunct (text.take budget) = some i :=
    lastIndexWhere_eq_some _ _ _ _ hiw hp (fun j h1 h2 => hr j h1 h2)
  have hib : i < budget := by
    rw [List.length_take] at hiw
    omega
  have hit : i < text.length := by omega
  have htr : AIProvider.truncate_text text budget = text.take (i + 1) := by
    rw [truncate_text_of_lt text budget (by omega), hL]
    have h0 : (0 : Int) < foundToInt (some i) := by
      simp only [foundToInt]
      omega
    simp [foundToInt, h0, Int.toNat_ofNat]
    intro h
    omega
  constructor
  · rw [htr, List.take_succ]
    have hg : text[i]? = some (text.getD i ' ') := by
      rw [List.getElem?_eq_getElem hit, List.getD_eq_getElem?_getD,
        List.getElem?_eq_getElem hit]
      rfl
    rw [hg, getD_take_eq text budget i ' ' hib]
    rfl
  · rw [htr, List.length_take]
    omega

/-- Claim C5 witness: "ab.cd" with budget 4 is cut to "ab." of length 3. -/
theorem C5_amended_boundary_truncation_witness :
    AIProvider.truncate_text ['a', 'b', '.', 'c', 'd'] 4
        = (['a', 'b', '.', 'c', 'd'] : List Char).take 2
            ++ [((['a', 'b', '.', 'c', 'd'] : List Char).take 4).getD 2 ' '] ∧
    (AIProvider.truncate_text ['a', 'b', '.', 'c', 'd'] 4).length ≤ 4 :=
  C5_amended_boundary_truncation ['a', 'b', '.', 'c', 'd'] 4 2 (by decide) (by decide)
    (by decide) (by decide) (by decide)

/-- Claim C9 (confirmed): the truncation implementation in
`services.py` and the one in `providers.py` are extensionally equal. -/
theorem C9_truncate_implementations_agree (text : List Char) (max_chars : Nat) :
    OpenAIService.truncate_text text max_chars = AIProvider.truncate_text text max_chars :=
  rfl

/-! ### Lemmas about the credential store -/

lemma validCount_invalidate_self (db : List APIKey) (p : String) (u : Option String) :
    validCount (db.map fun k =>
      if k.user_id = u ∧ k.provider = p then { k with is_valid := false } else k) p u = 0 := by
  induction db with
  | nil => rfl
  | cons x xs ih =>
    simp only [List.map_cons, validCount, List.countP_cons] at ih ⊢
    by_cases hx : x.user_id = u ∧ x.provider = p
    · rw [if_pos hx]
      simpa [validPred] using ih
    · rw [if_neg hx]
      have hxf : validPred p u x = false := by
        simp only [validPred, decide_eq_false_iff_not]
        rintro ⟨h1, h2, h3⟩
        exact hx ⟨h2, h1⟩
      simpa [hxf] using ih

lemma validCount_invalidate_ne (db : List APIKey) (p : String) (u : Option String)
    (q : String) (v : Option String) (hqv : ¬(q = p ∧ v = u)) :
    validCount (db.map fun k =>
      if k.user_id = u ∧ k.provider = p then { k with is_valid := false } else k) q v
      = validCount db q v := by
  induction db with
  | nil => rfl
  | cons x xs ih =>
    simp only [List.map_cons, validCount, List.countP_cons] at ih ⊢
    by_cases hx : x.user_id = u ∧ x.provider = p
    · rw [if_pos hx]
      have hxf : validPred q v x = false := by
        simp only [validPred, decide_eq_false_iff_not]
        rintro ⟨h1, h2, h3⟩
        exact hqv ⟨by rw [← h1, hx.2], by rw [← h2, hx.1]⟩
      have hxf2 : validPred q v { x with is_valid := false } = false := by
        simp [validPred]
      rw [hxf, hxf2, ih]
    · rw [if_neg hx, ih]

lemma validCount_single_new (key p m : String) (u : Option String)
    (q : String) (v : Option String) :
    validCount [{ key := key, provider := p, model := m, user_id := u, is_valid := true }] q v
      = if q = p ∧ v = u then 1 else 0 := by
  simp only [validCount, List.countP_cons, List.countP_nil]
  by_cases h : q = p ∧ v = u
  · rcases h with ⟨h1, h2⟩
    subst h1
    subst h2
    simp [validPred]
  · rw [if_neg h]
    have hf : validPred q v
        { key := key, provider := p, model := m, user_id := u, is_valid := true } = false := by
      simp only [validPred, decide_eq_false_iff_not]
      rintro ⟨h1, h2, h3⟩
      exact h ⟨h1.symm, h2.symm⟩
    simp [hf]

lemma update_snd_none_iff (db : List APIKey) (key p m : String) (u : Option String) :
    (DatabaseService.update_api_key db key p m u).2 = none
      ↔ p ∈ Provider.values ∧ m ∈ Model.values := by
  unfold DatabaseService.update_api_key
  by_cases hp : p ∈ Provider.values <;> by_cases hm : m ∈ Model.values <;>
    simp [hp, hm]

lemma update_fst_invalid (db : List APIKey) (key p m : String) (u : Option String)
    (h : p ∉ Provider.values ∨ m ∉ Model.values) :
    (DatabaseService.update_api_key db key p m u).1 = db := by
  unfold DatabaseService.update_api_key
  rcases h with h | h
  · simp [h]
  · by_cases hp : p ∈ Provider.values <;> simp [hp, h]

lemma update_fst_good (db : List APIKey) (key p m : String) (u : Option String)
    (hu : u ≠ some "") (hp : p ∈ Provider.values) (hm : m ∈ Model.values) :
    (DatabaseService.update_api_key db key p m u).1
      = (db.map fun k =>
          if k.user_id = u ∧ k.provider = p then { k with is_valid := false } else k)
        ++ [{ key := key, provider := p, model := m, user_id := u, is_valid := true }] := by
  unfold DatabaseService.update_api_key
  rcases u with _ | s
  · simp [hp, hm, truthy]
  · have hs : s ≠ "" := fun h => hu (by rw [h])
    simp [hp, hm, truthy, hs]

lemma update_validCount_good (db : List APIKey) (key p m : String) (u : Option String)
    (hu : u ≠ some "") (hp : p ∈ Provider.values) (hm : m ∈ Model.values)
    (q : String) (v : Option String) :
    validCount (DatabaseService.update_api_key db key p m u).1 q v
      = if q = p ∧ v = u then 1 else validCount db q v := by
  rw [update_fst_good db key p m u hu hp hm]
  have happ : validCount
      ((db.map fun k =>
          if k.user_id = u ∧ k.provider = p then { k with is_valid := false } else k)
        ++ [{ key := key, provider := p, model := m, user_id := u, is_valid := true }]) q v
      = validCount (db.map fun k =>
          if k.user_id = u ∧ k.provider = p then { k with is_valid := false } else k) q v
        + validCount [{ key := key, provider := p, model := m, user_id := u, is_valid := true }] q v := by
    simp [validCount]
  rw [happ, validCount_single_new]
  by_cases h : q = p ∧ v = u
  · rcases h with ⟨h1, h2⟩
    subst h1
    subst h2
    rw [validCount_invalidate_self]
    simp
  · rw [if_neg h, if_neg h, validCount_invalidate_ne db p u q v h]
    simp

/-! ### Claim C1: credential scoping of update_api_key -/

/-- Claim C1 fails as stated: two updates with the empty-string user id
(a present, non-NULL value, hence its own scope by the claim) leave two
simultaneously valid keys for the ("openai", "") partition, because
Python truthiness routes the invalidation to the NULL partition while
the insert carries the empty-string user id. -/
theorem C1_counterexample :
    ReachableDB
      [{ key := "k1", provider := "openai", model := "gpt-4", user_id := some "", is_valid := true },
       { key := "k2", provider := "openai", model := "gpt-4", user_id := some "", is_valid := true }] ∧
    validCount
      [{ key := "k1", provider := "openai", model := "gpt-4", user_id := some "", is_valid := true },
       { key := "k2", provider := "openai", model := "gpt-4", user_id := some "", is_valid := true }]
      "openai" (some "") = 2 := by
  constructor
  · have h2 := ReachableDB.step _ "k2" "openai" "gpt-4" (some "")
      (ReachableDB.step _ "k1" "openai" "gpt-4" (some "") ReachableDB.init)
    have he : (DatabaseService.update_api_key
        (DatabaseService.update_api_key [] "k1" "openai" "gpt-4" (some "")).1
        "k2" "openai" "gpt-4" (some "")).1
        = [{ key := "k1", provider := "openai", model := "gpt-4", user_id := some "",
              is_valid := true },
           { key := "k2", provider := "openai", model := "gpt-4", user_id := some "",
              is_valid := true }] := by decide
    rw [he] at h2
    exact h2
  · decide

/-- Claim C1 amended (restricted to calls whose user id is absent or a
non-empty string, the counterexample being the empty-string user id):
every reachable table has at most one valid key per (provider,
user-scope) partition; a successful update leaves exactly one valid key
in its own partition; and an update never changes the valid-key count
of any other partition — in particular a no-user update never
invalidates a user-scoped key of the same provider, nor vice versa. -/
theorem C1_amended_scope_invariant :
    (∀ db, ReachableDBGood db → ∀ p u, validCount db p u ≤ 1) ∧
    (∀ db key p m u, u ≠ some "" →
      ((DatabaseService.update_api_key db key p m u).2 = none →
        validCount (DatabaseService.update_api_key db key p m u).1 p u = 1) ∧
      (∀ q v, ¬(q = p ∧ v = u) →
        validCount (DatabaseService.update_api_key db key p m u).1 q v
          = validCount db q v)) := by
  constructor
  · intro db hdb
    induction hdb with
    | init =>
      intro p u
      simp [validCount]
    | step db key p m u hu hdb ih =>
      intro q v
      by_cases hp : p ∈ Provider.values
      · by_cases hm : m ∈ Model.values
        · rw [update_validCount_good db key p m u hu hp hm q v]
          by_cases h : q = p ∧ v = u
          · rw [if_pos h]
          · rw [if_neg h]
            exact ih q v
        · rw [update_fst_invalid db key p m u (Or.inr hm)]
          exact ih q v
      · rw [update_fst_invalid db key p m u (Or.inl hp)]
        exact ih q v
  · intro db key p m u hu
    constructor
    · intro hok
      rcases (update_snd_none_iff db key p m u).mp hok with ⟨hp, hm⟩
      rw [update_validCount_good db key p m u hu hp hm p u, if_pos ⟨rfl, rfl⟩]
    · intro q v hqv
      by_cases hp : p ∈ Provider.values
      · by_cases hm : m ∈ Model.values
        · rw [update_validCount_good db key p m u hu hp hm q v, if_neg hqv]
        · rw [update_fst_invalid db key p m u (Or.inr hm)]
      · rw [update_fst_invalid db key p m u (Or.inl hp)]

/-- Claim C1 witness: the invariant at the empty reachable table, and
cross-partition preservation for a concrete anthropic update over an
openai-scoped table. -/
theorem C1_amended_scope_invariant_witness :
    validCount [] "openai" none ≤ 1 ∧
    validCount (DatabaseService.update_api_key
        [{ key := "k", provider := "openai", model := "gpt-4", user_id := none,
           is_valid := true }]
        "k2" "anthropic" "claude-3-sonnet-20240229" none).1 "openai" none
      = validCount
        [{ key := "k", provider := "openai", model := "gpt-4", user_id := none,
           is_valid := true }] "openai" none :=
  ⟨C1_amended_scope_invariant.1 [] ReachableDBGood.init "openai" none,
   (C1_amended_scope_invariant.2 _ "k2" "anthropic" "claude-3-sonnet-20240229" none
      (by decide)).2 "openai" none (by decide)⟩

/-! ### Claim C2: the valid-credential lookup -/

lemma filter_head?_eq_none_iff (p : APIKey → Bool) (l : List APIKey) :
    (l.filter p).head? = none ↔ ∀ k ∈ l, p k = false := by
  induction l with
  | nil => simp
  | cons x xs ih =>
    rw [List.filter_cons]
    by_cases hx : p x
    · simp [hx]
    · simp only [hx, if_false, Bool.false_eq_true]
      rw [ih]
      simp [Bool.not_eq_true] at hx
      simp [hx]

lemma filter_head?_some (p : APIKey → Bool) (l : List APIKey) (a : APIKey)
    (h : (l.filter p).head? = some a) : a ∈ l ∧ p a = true := by
  induction l with
  | nil => simp at h
  | cons x xs ih =>
    rw [List.filter_cons] at h
    by_cases hx : p x
    · rw [if_pos hx] at h
      simp only [List.head?_cons, Option.some.injEq] at h
      rw [← h]
      exact ⟨List.mem_cons_self x xs, hx⟩
    · rw [if_neg hx] at h
      rcases ih h with ⟨h1, h2⟩
      exact ⟨List.mem_cons_of_mem x h1, h2⟩

/-- Claim C2 fails as stated: with an absent user id the lookup applies
no user filter at all, so it happily returns a user-scoped credential
for the provider instead of "only a credential with no owning user". -/
theorem C2_counterexample :
    get_api_key_query
      [{ key := "k", provider := "openai", model := "gpt-4", user_id := some "alice",
         is_valid := true }] "openai" none
      = some { key := "k", provider := "openai", model := "gpt-4", user_id := some "alice",
               is_valid := true } ∧
    (some "alice" : Option String) ≠ none := by
  constructor
  · rfl
  · decide

/-- Claim C2 amended: for a present non-empty user id the lookup
returns absent exactly when no valid key of the exact (provider, user)
scope exists, and anything it returns has that exact scope; for an
absent user id it returns the first valid key of the provider
regardless of owner (absent exactly when the provider has no valid key
at all); and the service-layer credential query of ask_question is the
absent-user lookup. -/
theorem C2_amended_lookup_scope (db : List APIKey) (p s : String) (k : APIKey)
    (hs : s ≠ "") :
    ((get_api_key_query db p (some s) = none ↔
        db.countP (fun j => j.user_id == some s && (j.provider == p && j.is_valid)) = 0) ∧
      (get_api_key_query db p (some s) = some k →
        k.provider = p ∧ k.user_id = some s ∧ k.is_valid = true)) ∧
    ((get_api_key_query db p none = none ↔
        db.countP (fun j => j.provider == p && j.is_valid) = 0) ∧
      (get_api_key_query db p none = some k →
        k.provider = p ∧ k.is_valid = true)) ∧
    svc_credential db p = get_api_key_query db p none := by
  have htr : truthy (some s) = true := by
    simp [truthy, hs]
  have hq : get_api_key_query db p (some s)
      = (db.filter fun j => j.user_id == some s && (j.provider == p && j.is_valid)).head? := by
    simp only [get_api_key_query, htr, if_true]
    rw [List.filter_filter]
  have hq0 : get_api_key_query db p none
      = (db.filter fun j => j.provider == p && j.is_valid).head? := by
    simp only [get_api_key_query, truthy, Bool.false_eq_true, if_false]
  refine ⟨⟨?_, ?_⟩, ⟨?_, ?_⟩, ?_⟩
  · rw [hq, filter_head?_eq_none_iff, List.countP_eq_zero]
    simp
  · intro h
    rw [hq] at h
    have := (filter_head?_some _ _ _ h).2
    simp only [Bool.and_eq_true, beq_iff_eq] at this
    exact ⟨this.2.1, this.1, this.2.2⟩
  · rw [hq0, filter_head?_eq_none_iff, List.countP_eq_zero]
    simp
  · intro h
    rw [hq0] at h
    have := (filter_head?_some _ _ _ h).2
    simp only [Bool.and_eq_true, beq_iff_eq] at this
    exact ⟨this.1, this.2⟩
  · rw [hq0]
    rfl

/-- Claim C2 witness: the amended lookup at a one-row table whose only
key is user-scoped. -/
theorem C2_amended_lookup_scope_witness :
    ((get_api_key_query
        [{ key := "k", provider := "openai", model := "gpt-4", user_id := some "alice",
           is_valid := true }] "openai" (some "alice") = none ↔
        List.countP
          (fun (j : APIKey) => j.user_id == some "alice" && (j.provider == "openai" && j.is_valid))
          [{ key := "k", provider := "openai", model := "gpt-4", user_id := some "alice",
             is_valid := true }] = 0) ∧
      (get_api_key_query
          [{ key := "k", provider := "openai", model := "gpt-4", user_id := some "alice",
             is_valid := true }] "openai" (some "alice")
          = some { key := "k", provider := "openai", model := "gpt-4", user_id := some "alice",
                   is_valid := true } →
        ({ key := "k", provider := "openai", model := "gpt-4", user_id := some "alice",
           is_valid := true } : APIKey).provider = "openai" ∧
        ({ key := "k", provider := "openai", model := "gpt-4", user_id := some "alice",
           is_valid := true } : APIKey).user_id = some "alice" ∧
        ({ key := "k", provider := "openai", model := "gpt-4", user_id := some "alice",
           is_valid := true } : APIKey).is_valid = true)) ∧
    ((get_api_key_query
        [{ key := "k", provider := "openai", model := "gpt-4", user_id := some "alice",
           is_valid := true }] "openai" none = none ↔
        List.countP (fun (j : APIKey) => j.provider == "openai" && j.is_valid)
          [{ key := "k", provider := "openai", model := "gpt-4", user_id := some "alice",
             is_valid := true }] = 0) ∧
      (get_api_key_query
          [{ key := "k", provider := "openai", model := "gpt-4", user_id := some "alice",
             is_valid := true }] "openai" none
          = some { key := "k", provider := "openai", model := "gpt-4", user_id := some "alice",
                   is_valid := true } →
        ({ key := "k", provider := "openai", model := "gpt-4", user_id := some "alice",
           is_valid := true } : APIKey).provider = "openai" ∧
        ({ key := "k", provider := "openai", model := "gpt-4", user_id := some "alice",
           is_valid := true } : APIKey).is_valid = true)) ∧
    svc_credential
        [{ key := "k", provider := "openai", model := "gpt-4", user_id := some "alice",
           is_valid := true }] "openai"
      = get_api_key_query
        [{ key := "k", provider := "openai", model := "gpt-4", user_id := some "alice",
           is_valid := true }] "openai" none :=
  C2_amended_lookup_scope
    [{ key := "k", provider := "openai", model := "gpt-4", user_id := some "alice",
       is_valid := true }] "openai" "alice"
    { key := "k", provider := "openai", model := "gpt-4", user_id := some "alice",
      is_valid := true } (by decide)

/-! ### Claims C3, C6 and C7: service orchestration -/

lemma svc_credential_cons_hit (rest : List APIKey) (key mdl : String)
    (uid : Option String) :
    svc_credential
      ({ key := key, provider := "openai", model := mdl, user_id := uid,
         is_valid := true } :: rest) "openai"
      = some { key := key, provider := "openai", model := mdl, user_id := uid,
               is_valid := true } := by
  unfold svc_credential
  rw [List.filter_cons]
  simp

lemma svc_openai_trace (backend : OpenAIRequest → Except String ChatResponse)
    (rest : List APIKey) (key mdl : String) (uid : Option String)
    (q c : String) (m : Option String) :
    (OpenAIService.ask_question backend
        ({ key := key, provider := "openai", model := mdl, user_id := uid,
           is_valid := true } :: rest) q c "openai" m).trace
      = [SvcEvent.credLookup "openai",
         SvcEvent.externalCall (mkChatRequest (pyOrStr m mdl) q
           (String.mk (OpenAIService.truncate_text c.toList 4000)))] := by
  simp only [OpenAIService.ask_question, svc_credential_cons_hit]
  cases hb : backend (mkChatRequest (pyOrStr m mdl) q
      (String.mk (OpenAIService.truncate_text c.toList 4000))) <;>
    simp [hb]

lemma sentModels_openai (backend : OpenAIRequest → Except String ChatResponse)
    (rest : List APIKey) (key mdl : String) (uid : Option String)
    (q c : String) (m : Option String) :
    sentModels (OpenAIService.ask_question backend
        ({ key := key, provider := "openai", model := mdl, user_id := uid,
           is_valid := true } :: rest) q c "openai" m) = [pyOrStr m mdl] := by
  unfold sentModels
  rw [svc_openai_trace]
  simp [mkChatRequest]

/-- Claim C3 fails as stated: an ask with the unsupported provider
"gemini" still performs the credential query — its collaborator trace
holds one credential-lookup event, not zero. -/
theorem C3_counterexample :
    (OpenAIService.ask_question (fun _ => Except.error "e") [] "q" "c" "gemini" none).trace
      = [SvcEvent.credLookup "gemini"] ∧
    "gemini" ∉ Provider.values := by
  constructor
  · rfl
  · decide

/-- Claim C3 amended: an ask with an unsupported provider returns an
error result and makes no external backend call, but only after one
credential lookup (the query runs before the provider check). -/
theorem C3_amended_short_circuit (backend : OpenAIRequest → Except String ChatResponse)
    (db : List APIKey) (q c p : String) (m : Option String)
    (hp : p ∉ Provider.values) :
    (OpenAIService.ask_question backend db q c p m).result.isErrorResult = true ∧
    (OpenAIService.ask_question backend db q c p m).trace = [SvcEvent.credLookup p] := by
  have hp1 : ¬(p = "openai") := by
    intro h
    exact hp (by rw [h]; decide)
  have hp2 : ¬(p = "anthropic") := by
    intro h
    exact hp (by rw [h]; decide)
  unfold OpenAIService.ask_question
  cases hc : svc_credential db p with
  | none => simp [PyResult.isErrorResult]
  | some k => simp [hp1, hp2, PyResult.isErrorResult]

/-- Claim C3 witness: the amended statement at the unsupported provider
"gemini" over a table that does hold a (hand-inserted) gemini key. -/
theorem C3_amended_short_circuit_witness :
    (OpenAIService.ask_question (fun _ => Except.error "e")
        [{ key := "g", provider := "gemini", model := "m", user_id := none,
           is_valid := true }] "q1" "c1" "gemini" none).result.isErrorResult = true ∧
    (OpenAIService.ask_question (fun _ => Except.error "e")
        [{ key := "g", provider := "gemini", model := "m", user_id := none,
           is_valid := true }] "q1" "c1" "gemini" none).trace
      = [SvcEvent.credLookup "gemini"] :=
  C3_amended_short_circuit (fun _ => Except.error "e")
    [{ key := "g", provider := "gemini", model := "m", user_id := none, is_valid := true }]
    "q1" "c1" "gemini" none (by decide)

/-- Claim C7 fails as stated: the caller supplies the model "" (a
supplied value), yet the backend receives the credential's stored model
"gpt-4", because `model or api_key.model` treats "" as absent. -/
theorem C7_counterexample :
    sentModels (OpenAIService.ask_question (fun _ => Except.error "boom")
        [{ key := "sk", provider := "openai", model := "gpt-4", user_id := none,
           is_valid := true }] "q" "c" "openai" (some "")) = ["gpt-4"] ∧
    ("" : String) ≠ "gpt-4" := by
  constructor
  · rfl
  · decide

/-- Claim C7 amended: in the service path the model handed to the
backend is the caller's model when it is a non-empty string, and the
credential's stored model when the caller's model is absent or empty;
the standalone provider adapter, invoked without a model, falls back to
the process-wide configuration default instead. -/
theorem C7_amended_effective_model (backend : OpenAIRequest → Except String ChatResponse)
    (rest : List APIKey) (key mdl : String) (uid : Option String)
    (q c s : String) (hs : s ≠ "") :
    sentModels (OpenAIService.ask_question backend
        ({ key := key, provider := "openai", model := mdl, user_id := uid,
           is_valid := true } :: rest) q c "openai" (some s)) = [s] ∧
    sentModels (OpenAIService.ask_question backend
        ({ key := key, provider := "openai", model := mdl, user_id := uid,
           is_valid := true } :: rest) q c "openai" none) = [mdl] ∧
    sentModels (OpenAIService.ask_question backend
        ({ key := key, provider := "openai", model := mdl, user_id := uid,
           is_valid := true } :: rest) q c "openai" (some "")) = [mdl] ∧
    (OpenAIProvider.ask_question backend key q c none).2.map OpenAIRequest.model
      = [Config.OPENAI_MODEL] := by
  refine ⟨?_, ?_, ?_, ?_⟩
  · rw [sentModels_openai]
    simp [pyOrStr, hs]
  · rw [sentModels_openai]
    rfl
  · rw [sentModels_openai]
    rfl
  · simp only [OpenAIProvider.ask_question]
    split <;> simp [mkChatRequest, pyOrStr]

/-- Claim C7 witness: concrete effective models for a supplied,
an absent and an empty caller model. -/
theorem C7_amended_effective_model_witness :
    sentModels (OpenAIService.ask_question (fun _ => Except.error "x")
        ({ key := "sk", provider := "openai", model := "gpt-4", user_id := none,
           is_valid := true } :: []) "q" "c" "openai" (some "gpt-3.5-turbo"))
      = ["gpt-3.5-turbo"] ∧
    sentModels (OpenAIService.ask_question (fun _ => Except.error "x")
        ({ key := "sk", provider := "openai", model := "gpt-4", user_id := none,
           is_valid := true } :: []) "q" "c" "openai" none) = ["gpt-4"] ∧
    sentModels (OpenAIService.ask_question (fun _ => Except.error "x")
        ({ key := "sk", provider := "openai", model := "gpt-4", user_id := none,
           is_valid := true } :: []) "q" "c" "openai" (some "")) = ["gpt-4"] ∧
    (OpenAIProvider.ask_question (fun _ => Except.error "x") "sk" "q" "c" none).2.map
        OpenAIRequest.model = [Config.OPENAI_MODEL] :=
  C7_amended_effective_model (fun _ => Except.error "x") [] "sk" "gpt-4" none "q" "c"
    "gpt-3.5-turbo" (by decide)

/-- Claim C6 fails as stated: update_api_key accepts the Anthropic
model for the provider "openai" (it checks the flat Model enum, not the
requested provider's allow-list), succeeding although that model is
absent from the openai allow-list of the configuration. -/
theorem C6_counterexample :
    (DatabaseService.update_api_key [] "sk" "openai" "claude-3-sonnet-20240229" none).2
      = none ∧
    "claude-3-sonnet-20240229" ∉ providerAllowList "openai" := by
  constructor
  · rfl
  · decide

/-- Claim C6 amended: for a valid provider, update_api_key passes model
validation exactly when the model belongs to the global Model enum (the
union over all providers), regardless of the requested provider; and
the ask-question service path performs no model validation at all — any
supplied non-empty model string, even one outside every allow-list, is
handed to the backend unchanged. -/
theorem C6_amended_model_validation (db : List APIKey) (key p m : String)
    (u : Option String) (backend : OpenAIRequest → Except String ChatResponse)
    (rest : List APIKey) (akey mdl : String) (uid : Option String)
    (q c s : String) (hp : p ∈ Provider.values) (hs : s ≠ "")
    (hsm : s ∉ Model.values) :
    ((DatabaseService.update_api_key db key p m u).2 = none ↔ m ∈ Model.values) ∧
    sentModels (OpenAIService.ask_question backend
        ({ key := akey, provider := "openai", model := mdl, user_id := uid,
           is_valid := true } :: rest) q c "openai" (some s)) = [s] := by
  constructor
  · rw [update_snd_none_iff]
    simp [hp]
  · rw [sentModels_openai]
    simp [pyOrStr, hs]

/-- Claim C6 witness: the model-enum check at a valid and an invalid
model, and a fantasy model reaching the backend through ask_question. -/
theorem C6_amended_model_validation_witness :
    ((DatabaseService.update_api_key [] "sk" "openai" "gpt-4" none).2 = none ↔
      "gpt-4" ∈ Model.values) ∧
    sentModels (OpenAIService.ask_question (fun _ => Except.error "x")
        ({ key := "ak", provider := "openai", model := "gpt-4", user_id := none,
           is_valid := true } :: []) "q" "c" "openai" (some "totally-made-up-model"))
      = ["totally-made-up-model"] :=
  C6_amended_model_validation [] "sk" "openai" "gpt-4" none (fun _ => Except.error "x")
    [] "ak" "gpt-4" none "q" "c" "totally-made-up-model" (by decide) (by decide) (by decide)

/-! ### Claims C8 and C10: the provider adapters -/

/-- Claim C8 (confirmed): each adapter returns either an answer or an
error dictionary, makes exactly one client invocation per call (no
retries), converts a raised backend fault to the error dictionary
carrying its message, converts a malformed (empty-choices) response to
the caught IndexError message, and extracts the first completion's text
on success. -/
theorem C8_adapter_uniform_result
    (backendO : OpenAIRequest → Except String ChatResponse)
    (backendA : AnthropicArgs → Except String AnthropicMessage)
    (akey q c e answerText : String) (m : Option String) :
    ((∃ s, (OpenAIProvider.ask_question backendO akey q c m).1 = PyResult.answer s) ∨
      (∃ s, (OpenAIProvider.ask_question backendO akey q c m).1 = PyResult.errorRes s)) ∧
    (OpenAIProvider.ask_question backendO akey q c m).2.length = 1 ∧
    ((∃ s, (AnthropicProvider.ask_question backendA akey q c m).1 = PyResult.answer s) ∨
      (∃ s, (AnthropicProvider.ask_question backendA akey q c m).1 = PyResult.errorRes s)) ∧
    (AnthropicProvider.ask_question backendA akey q c m).2.length = 1 ∧
    (OpenAIProvider.ask_question (fun _ => Except.error e) akey q c m).1
      = PyResult.errorRes e ∧
    (OpenAIProvider.ask_question (fun _ => Except.ok { choices := [] }) akey q c m).1
      = PyResult.errorRes "list index out of range" ∧
    (OpenAIProvider.ask_question
        (fun _ => Except.ok
          { choices := [{ message := { role := "assistant", content := answerText } }] })
        akey q c m).1
      = PyResult.answer answerText := by
  refine ⟨?_, ?_, ?_, ?_, ?_, ?_, ?_⟩
  · simp only [OpenAIProvider.ask_question]
    split
    · rcases hr : extractAnswer _ with s | s
      · exact Or.inl ⟨s, by simp [hr]⟩
      · exact Or.inr ⟨s, by simp [hr]⟩
    · exact Or.inr ⟨_, rfl⟩
  · simp only [OpenAIProvider.ask_question]
    split <;> rfl
  · simp only [AnthropicProvider.ask_question, anthropicCreate]
    exact Or.inr ⟨_, rfl⟩
  · simp only [AnthropicProvider.ask_question, anthropicCreate]
    rfl
  · rfl
  · rfl
  · rfl

/-- Claim C10 (confirmed against the modelled client contract): the
Anthropic adapter invokes the client with a `content` keyword argument
and no `messages` list, so every call faults inside the `try` block and
is converted to the error dictionary — it can never produce an answer
result, whatever the backend would reply. -/
theorem C10_anthropic_always_error
    (backendA : AnthropicArgs → Except String AnthropicMessage)
    (akey q c : String) (m : Option String) :
    (AnthropicProvider.ask_question backendA akey q c m).1.isErrorResult = true ∧
    (AnthropicProvider.ask_question backendA akey q c m).1
      = PyResult.errorRes "Messages.create() got an unexpected keyword argument: content" := by
  constructor
  · simp [AnthropicProvider.ask_question, anthropicCreate, PyResult.isErrorResult]
  · simp [AnthropicProvider.ask_question, anthropicCreate]
